import Mathlib

/-!
Verification development for the chart/badge visualizer
(`src/visualizer.py`, class `Visualizer`).

The Python source is shallowly embedded: pure helpers become Lean
functions; the process-wide mutable state (in-memory badge cache and
on-disk cache directory) becomes an explicit `CacheState` threaded
through the functions; the network, the image decoder and the image
encoder are parameters (a `Transport`); fallible operations return
`Option`.  Floating-point values are modelled as exact rationals, and
Python fixed-point formatting (`f-string` `.3f` / `.1f`) as decimal
rounding half-to-even of the exact value.  Calls into matplotlib are
modelled by recording, in a chart structure, the data the source passes
to them (bars, wedges, labels, colors, opacities, output path).
-/

/-- Abstract decoded image content (PIL `Image.Image`). -/
abbrev Img := Nat

/-- Abstract raw byte content of a file or HTTP response body. -/
abbrev Bytes := Nat

/-- One entry of `languages.json`: the per-language metadata dictionary.
Each field is `Option` (key may be missing); an empty string is a
present-but-falsy value, which Python truthiness treats like absence. -/
structure LangConfig where
  color : Option String
  badge_color : Option String
  logo : Option String
deriving Repr, DecidableEq

/-- The loaded `languages.json` table: the lookup of a language with
an empty-dict default is modelled by `Option LangConfig`, where `none`
means the language is not in the dict. -/
abbrev Langs := String → Option LangConfig

/-- Python truthiness of an optional string: `None`, a missing key and
the empty string are all falsy. -/
def truthy (o : Option String) : Option String :=
  match o with
  | none => none
  | some s => if s = "" then none else some s

/-- Association lookup with string keys (first match wins; writing is
modelled by prepending, which shadows older entries like a dict or a
file overwrite). -/
def alookup (l : List (String × α)) (k : String) : Option α :=
  match l with
  | [] => none
  | (k1, v) :: rest => if k1 = k then some v else alookup rest k

/-- The two cache layers of the badge resolver: `self.badge_cache`
(in-memory dict, keyed by the language name) and the files under
`self.badge_cache_dir` (keyed by the sanitized file stem). -/
structure CacheState where
  badge_cache : List (String × Img)
  disk : List (String × Bytes)
deriving Repr, DecidableEq

/-- External effects of the badge resolver: `requests.get` (returning
`none` on transport failure or on a non-success status, i.e. when
`raise_for_status` raises), `Image.open` (decode, `none` when it raises
`OSError`/`ValueError`) and `img.save` (the bytes an image writes). -/
structure Transport where
  http : String → Option Bytes
  decode : Bytes → Option Img
  encode : Img → Bytes

/-- Model of `_get_color`: look up the language, then read the key
`color` with the default `#888888`.  Note a `.get` with a default
returns a present value even if falsy. -/
def getColor (langs : Langs) (language : String) : String :=
  match langs language with
  | some cfg => cfg.color.getD "#888888"
  | none => "#888888"

/-- The character replacement `language.replace(' ', '_')` used by
`_get_badge_url` (single-character pattern, so it is a character map). -/
def underscoreSpaces (language : String) : String :=
  String.mk (language.data.map (fun c => if c = ' ' then '_' else c))

/-- Model of `_get_badge_url`: builds the shields.io URL from the language
metadata; the source tests `lang_config` and its `badge_color` key by
Python truthiness on the dict and on the color string. -/
def getBadgeUrl (langs : Langs) (language : String) : String :=
  let lang_name := underscoreSpaces language
  match langs language with
  | some cfg =>
    match truthy cfg.badge_color with
    | some color =>
      match truthy cfg.logo with
      | some logo =>
        "https://img.shields.io/badge/" ++ lang_name ++ "-" ++ color ++
          ".png?style=for-the-badge&logo=" ++ logo ++ "&logoColor=white"
      | none =>
        "https://img.shields.io/badge/" ++ lang_name ++ "-" ++ color ++
          ".png?style=for-the-badge"
    | none =>
      "https://img.shields.io/badge/" ++ lang_name ++ "-888888.png?style=for-the-badge"
  | none =>
    "https://img.shields.io/badge/" ++ lang_name ++ "-888888.png?style=for-the-badge"

/-- The sanitization step of `_download_badge`:
`language.replace(' ', '_').replace('/', '_')` (two single-character
replacements, i.e. a character map; the first introduces no `/` so the
order does not matter). -/
def sanitizeChar (c : Char) : Char :=
  if c = ' ' then '_' else if c = '/' then '_' else c

/-- The file stem `safe_name` of `_download_badge`. -/
def sanitizeName (language : String) : String :=
  String.mk (language.data.map sanitizeChar)

/-- Result of one `_download_badge` call: the returned value (`none` is
Python `None`), the cache state afterwards, how many times
`requests.get` ran, and the warnings printed. -/
structure DownloadResult where
  result : Option Img
  state : CacheState
  netCalls : Nat
  warnings : List String
deriving Repr, DecidableEq

/-- The fetch tail of `_download_badge` (from `url = self._get_badge_url`
on): GET, `raise_for_status`, decode, save to disk, store in memory;
any `RequestException`/`OSError`/`ValueError` prints a warning and
returns `None` with the caches untouched. -/
def fetchBadge (tr : Transport) (langs : Langs) (st : CacheState)
    (language safe_name : String) : DownloadResult :=
  match tr.http (getBadgeUrl langs language) with
  | some body =>
    match tr.decode body with
    | some img =>
      ⟨some img,
       ⟨(language, img) :: st.badge_cache, (safe_name, tr.encode img) :: st.disk⟩,
       1, []⟩
    | none => ⟨none, st, 1, ["Warning: Could not download badge for " ++ language]⟩
  | none => ⟨none, st, 1, ["Warning: Could not download badge for " ++ language]⟩

/-- Model of `_download_badge`: in-memory hit, else disk hit (decode failure of a
stale file falls through without deleting it), else fetch. -/
def downloadBadge (tr : Transport) (langs : Langs) (st : CacheState)
    (language : String) : DownloadResult :=
  match alookup st.badge_cache language with
  | some img => ⟨some img, st, 0, []⟩
  | none =>
    match alookup st.disk (sanitizeName language) with
    | some bytes =>
      match tr.decode bytes with
      | some img => ⟨some img, ⟨(language, img) :: st.badge_cache, st.disk⟩, 0, []⟩
      | none => fetchBadge tr langs st language (sanitizeName language)
    | none => fetchBadge tr langs st language (sanitizeName language)

/-- A Python numeric value of type `Union[int, float]`; floats are
modelled as exact rationals. -/
inductive PyNum where
  | pint (n : Int)
  | pfloat (q : Rat)
deriving Repr, DecidableEq

/-- Round `num / den` (with `den > 0`) to the nearest integer, ties to
even: the rounding of Python fixed-point formatting, applied here to
the exact value. -/
def roundHalfEvenFrac (num : Int) (den : Int) : Int :=
  let f := Int.fdiv num den
  let r := num - f * den
  if 2 * r < den then f
  else if den < 2 * r then f + 1
  else if f % 2 = 0 then f else f + 1

/-- Left-pad a digit string with zeros to length `d`. -/
def padZeros (s : String) (d : Nat) : String :=
  String.mk (List.replicate (d - s.length) '0') ++ s

/-- Python fixed-point formatting of an exact value with `d` decimal
places (the model of `f-strings` such as `.3f` and `.1f`): rounds
`q * 10 ^ d` half-to-even and prints the scaled digits. -/
def formatFixed (q : Rat) (d : Nat) : String :=
  let scaled : Int := roundHalfEvenFrac (q.num * (10 : Int) ^ d) (q.den : Int)
  let sign := if scaled < 0 then "-" else ""
  let a := scaled.natAbs
  sign ++ toString (a / 10 ^ d) ++ "." ++ padZeros (toString (a % 10 ^ d)) d

/-- Model of `_format_number`: floats always get `.3f`; integers get an `M` or
`K` abbreviation at one decimal place (`num/1_000_000` is Python true
division, i.e. the exact rational `Rat.divInt n 1000000`), or plain
`str`. -/
def formatNumber (num : PyNum) : String :=
  match num with
  | .pfloat q => formatFixed q 3
  | .pint n =>
    if 1000000 ≤ n then formatFixed (Rat.divInt n 1000000) 1 ++ "M"
    else if 1000 ≤ n then formatFixed (Rat.divInt n 1000) 1 ++ "K"
    else toString n

/-- The label placed next to a category by the badge loop of each
horizontal chart: a badge image box when `_download_badge` returned an
image, else the plain text of the language name (the fallback branch). -/
inductive CatLabel where
  | badgeImg (img : Img)
  | textLabel (name : String)
deriving Repr, DecidableEq

/-- The per-category badge loop (`for i, language in enumerate(languages)`),
threading the mutable cache state through the successive
`_download_badge` calls and collecting the printed warnings. -/
def resolveLabels (tr : Transport) (langs : Langs) :
    CacheState → List String → List CatLabel × CacheState × List String
  | st, [] => ([], st, [])
  | st, l :: rest =>
    let r := downloadBadge tr langs st l
    let lbl := match r.result with
      | some img => CatLabel.badgeImg img
      | none => CatLabel.textLabel l
    let tail := resolveLabels tr langs r.state rest
    (lbl :: tail.1, tail.2.1, r.warnings ++ tail.2.2)

/-- Result of a chart method with badge side effects: `output = none`
means no file was written; `log` is what the method printed. -/
structure RenderResult (α : Type) where
  output : Option α
  state : CacheState
  log : List String

/-- One bar as handed to `ax.barh` / `ax.bar`: the category, its value
and its fill color. -/
structure BarRow where
  language : String
  value : PyNum
  color : String
deriving Repr, DecidableEq

/-- The data `create_leaderboard` and `_create_simple_horizontal_bar`
pass to matplotlib: bars in input order, the formatted value labels,
the badge-or-text category labels, the axis label, the saved path. -/
structure HBarChart where
  bars : List BarRow
  valueLabels : List String
  catLabels : List CatLabel
  xlabel : String
  outputPath : String
deriving Repr, DecidableEq

/-- Model of `create_leaderboard`: full data (no cap), horizontal bars, badges
with text fallback, `No data` diagnostic and early return on empty
input. -/
def create_leaderboard (tr : Transport) (langs : Langs) (st : CacheState)
    (output_dir : String) (data : List (String × PyNum))
    (title filename value_label : String) : RenderResult HBarChart :=
  if data.isEmpty then ⟨none, st, ["No data to visualize for " ++ title]⟩
  else
    let languages := data.map Prod.fst
    let values := data.map Prod.snd
    let res := resolveLabels tr langs st languages
    let output_path := output_dir ++ "/" ++ filename
    ⟨some ⟨data.map (fun p => ⟨p.1, p.2, getColor langs p.1⟩),
           values.map formatNumber, res.1, value_label, output_path⟩,
     res.2.1, res.2.2 ++ ["Saved: " ++ output_path]⟩

/-- One stacked segment handed to `ax.barh` in
`create_leaderboard_with_breakdown`: its length, its `left` offset (an
int: the running sum of the breakdown line counts), color and alpha. -/
structure Seg where
  value : PyNum
  left : Int
  color : String
  alpha : Rat
deriving Repr, DecidableEq

/-- The opacity of the `j`-th breakdown segment:
`alpha = max(1.0 - j * 0.15, 0.4)`, written over hundredths so it
evaluates exactly. -/
def segAlpha (j : Nat) : Rat :=
  Rat.divInt (max (100 - 15 * (j : Int)) 40) 100

/-- The inner loop `for j, (repo, lines) in enumerate(top_repos)`:
each segment starts at the running `left` and advances it by `lines`. -/
def buildSegs (base_color : String) : Nat → Int → List (String × Int) → List Seg
  | _, _, [] => []
  | j, left, (_, lines) :: rest =>
    ⟨.pint lines, left, base_color, segAlpha j⟩ ::
      buildSegs base_color (j + 1) (left + lines) rest

/-- The value of `left` after the segment loop: the sum of the
breakdown line counts. -/
def sumLines (top_repos : List (String × Int)) : Int :=
  top_repos.foldl (fun a p => a + p.2) 0

/-- Python `left < values[i]` where `left` is an int and the value an
int or float (exact comparison). -/
def intLtPy (l : Int) (v : PyNum) : Bool :=
  match v with
  | .pint n => decide (l < n)
  | .pfloat q => Rat.blt (Rat.divInt l 1) q

/-- Python `values[i] - left` (int or float minus int, exact). -/
def pySubInt (v : PyNum) (l : Int) : PyNum :=
  match v with
  | .pint n => .pint (n - l)
  | .pfloat q => .pfloat (q - Rat.divInt l 1)

/-- The bars drawn for one category of the breakdown leaderboard: the
stacked segments plus the `alpha=0.25` remainder when their sum falls
short of the total, or one plain `alpha=0.9` full-width bar when the
callback returned nothing. -/
def langBars (base_color : String) (value : PyNum)
    (top_repos : List (String × Int)) : List Seg :=
  if top_repos.isEmpty then
    [⟨value, 0, base_color, Rat.divInt 9 10⟩]
  else
    let segs := buildSegs base_color 0 0 top_repos
    let left := sumLines top_repos
    if intLtPy left value then
      segs ++ [⟨pySubInt value left, left, base_color, Rat.divInt 25 100⟩]
    else segs

/-- The data `create_leaderboard_with_breakdown` passes to matplotlib:
per category its stacked segments, plus the shared layout of the
leaderboard. -/
structure BreakdownChart where
  rows : List (String × List Seg)
  valueLabels : List String
  catLabels : List CatLabel
  xlabel : String
  outputPath : String
deriving Repr, DecidableEq

/-- Model of `create_leaderboard_with_breakdown`: full data (no cap), per
category the segments from the `get_breakdown` callback, badges with
text fallback, `No data` diagnostic on empty input. -/
def create_leaderboard_with_breakdown (tr : Transport) (langs : Langs)
    (st : CacheState) (output_dir : String) (data : List (String × PyNum))
    (title filename value_label : String)
    (get_breakdown : String → Nat → List (String × Int))
    (top_repos_count : Nat) : RenderResult BreakdownChart :=
  if data.isEmpty then ⟨none, st, ["No data to visualize for " ++ title]⟩
  else
    let languages := data.map Prod.fst
    let values := data.map Prod.snd
    let res := resolveLabels tr langs st languages
    let output_path := output_dir ++ "/" ++ filename
    ⟨some ⟨data.map (fun p =>
             (p.1, langBars (getColor langs p.1) p.2 (get_breakdown p.1 top_repos_count))),
           values.map formatNumber, res.1, value_label, output_path⟩,
     res.2.1, res.2.2 ++ ["Saved: " ++ output_path]⟩

/-- The data `_create_vertical_bar` passes to matplotlib: at most the
first 12 categories, their bars, value labels and x tick labels (this
variant downloads no badges). -/
structure VBarChart where
  bars : List BarRow
  valueLabels : List String
  tickLabels : List String
  ylabel : String
  outputPath : String
deriving Repr, DecidableEq

/-- Model of `_create_vertical_bar`: `top_n = min(12, len(data))`, then
`data = data[:top_n]`. -/
def create_vertical_bar (langs : Langs) (output_dir : String)
    (data : List (String × PyNum)) (title filename value_label : String) :
    Option VBarChart × List String :=
  if data.isEmpty then (none, ["No data to visualize for " ++ title])
  else
    let top_n := min 12 data.length
    let d := data.take top_n
    let output_path := output_dir ++ "/" ++ filename
    (some ⟨d.map (fun p => ⟨p.1, p.2, getColor langs p.1⟩),
           (d.map Prod.snd).map formatNumber, d.map Prod.fst, value_label, output_path⟩,
     ["Saved: " ++ output_path])

/-- Model of `_create_simple_horizontal_bar`: `top_n = min(15, len(data))`, then
badges with text fallback like the leaderboard. -/
def create_simple_horizontal_bar (tr : Transport) (langs : Langs)
    (st : CacheState) (output_dir : String) (data : List (String × PyNum))
    (title filename value_label : String) : RenderResult HBarChart :=
  if data.isEmpty then ⟨none, st, ["No data to visualize for " ++ title]⟩
  else
    let top_n := min 15 data.length
    let d := data.take top_n
    let res := resolveLabels tr langs st (d.map Prod.fst)
    let output_path := output_dir ++ "/" ++ filename
    ⟨some ⟨d.map (fun p => ⟨p.1, p.2, getColor langs p.1⟩),
           (d.map Prod.snd).map formatNumber, res.1, value_label, output_path⟩,
     res.2.1, res.2.2 ++ ["Saved: " ++ output_path]⟩

/-- Python `sum` over values starting from the int `0`; any float makes
the running total a float. -/
def pyAdd (a b : PyNum) : PyNum :=
  match a, b with
  | .pint x, .pint y => .pint (x + y)
  | .pint x, .pfloat q => .pfloat (Rat.divInt x 1 + q)
  | .pfloat q, .pint y => .pfloat (q + Rat.divInt y 1)
  | .pfloat p, .pfloat q => .pfloat (p + q)

/-- The `self.donut_center_color` property: theme fill of the punched
center. -/
def donut_center_color (dark_mode : Bool) : String :=
  if dark_mode then "#161b22" else "#fafafa"

/-- The `self.donut_edge_color` property: theme edge of the punched
center. -/
def donut_edge_color (dark_mode : Bool) : String :=
  if dark_mode then "#30363d" else "#e0e0e0"

/-- Python `sum(item[1] for item in ...)`: a fold with `pyAdd` starting
from the int `0`. -/
def pySumValues (l : List (String × PyNum)) : PyNum :=
  l.foldl (fun a p => pyAdd a p.2) (.pint 0)

/-- One pie wedge as handed to `ax.pie`. -/
structure Wedge where
  label : String
  value : PyNum
  color : String
deriving Repr, DecidableEq

/-- The `plt.Circle((0, 0), 0.60, fc=.., ec=..)` artist added in donut
mode. -/
structure DonutHole where
  radius : Rat
  fc : String
  ec : String
deriving Repr, DecidableEq

/-- The data `_create_pie_chart` passes to matplotlib: the top-5 wedges
plus the synthesized `Other` wedge, and the center circle in donut
mode. -/
structure PieChart where
  wedges : List Wedge
  hole : Option DonutHole
  outputPath : String
deriving Repr, DecidableEq

/-- Model of `_create_pie_chart`: the first five entries, an `Other`
entry carrying the sum of the rest appended when more than five are
supplied, gray `#d0d0d0` for the `Other` wedge, and in donut mode the
0.60-radius theme-colored center circle. -/
def create_pie_chart (langs : Langs) (dark_mode : Bool) (output_dir : String)
    (data : List (String × PyNum)) (title filename : String) (donut : Bool) :
    Option PieChart × List String :=
  if data.isEmpty then (none, ["No data to visualize for " ++ title])
  else
    let top_n : Nat := 5
    let base := data.take top_n
    let top_data :=
      if top_n < data.length then
        base ++ [("Other", pySumValues (data.drop top_n))]
      else base
    let wedges := top_data.map (fun p =>
      ⟨p.1, p.2, if p.1 = "Other" then "#d0d0d0" else getColor langs p.1⟩)
    let hole :=
      if donut then
        some ⟨Rat.divInt 60 100, donut_center_color dark_mode, donut_edge_color dark_mode⟩
      else none
    let output_path := output_dir ++ "/" ++ filename
    (some ⟨wedges, hole, output_path⟩, ["Saved: " ++ output_path])

/-- Hex digit for percent-encoding (uppercase, per RFC 3986). -/
def hexDigit (n : Nat) : Char :=
  if n < 10 then Char.ofNat (48 + n) else Char.ofNat (55 + n)

/-- Unreserved characters of RFC 3986: kept verbatim by URL-encoding. -/
def isUnreserved (c : Char) : Bool :=
  c.isAlphanum || c = '-' || c = '.' || c = '_' || c = '~'

/-- Modelled from the spec: the URL-encoding (percent-encoding) the
spec says is applied to `<name>-<badgeColor>`; nothing in the source
percent-encodes, so this definition follows the words of the spec (RFC 3986
percent-encoding of an ASCII string) for comparison with
`getBadgeUrl`. -/
def specUrlEncode (s : String) : String :=
  String.mk (s.data.foldr (fun c acc =>
    if isUnreserved c then c :: acc
    else '%' :: hexDigit (c.toNat / 16) :: hexDigit (c.toNat % 16) :: acc) [])

/-- Decidable check that `pat` starts the list `l`. -/
def leadsWith : List Char → List Char → Bool
  | [], _ => true
  | _ :: _, [] => false
  | a :: pat, b :: l => a = b && leadsWith pat l

/-- Decidable check that `pat` occurs contiguously somewhere in `l`. -/
def occursIn (pat : List Char) : List Char → Bool
  | [] => pat.isEmpty
  | c :: rest => leadsWith pat (c :: rest) || occursIn pat rest

/-- Decidable substring test on strings. -/
def strOccurs (sub s : String) : Bool :=
  occursIn sub.data s.data

/-- Fixture: a transport whose GET always succeeds with body `5`,
whose decoder accepts any bytes, and whose encoder is the identity. -/
def trOk : Transport := ⟨fun _ => some 5, fun b => some b, fun i => i⟩

/-- Fixture: a transport whose GET always fails (transport failure or
non-success status). -/
def trFail : Transport := ⟨fun _ => none, fun b => some b, fun i => i⟩

/-- Fixture: an empty metadata table (the fallback when
`languages.json` cannot be loaded). -/
def langsEmpty : Langs := fun _ => none

/-- Fixture: a metadata table configuring a badge color and logo for
the language `C#` only. -/
def csharpLangs : Langs := fun l =>
  if l = "C#" then some ⟨some "#239120", some "239120", some "csharp"⟩ else none

/-- Fixture: both cache layers empty (a fresh process with an empty
cache directory). -/
def st0 : CacheState := ⟨[], []⟩

/-- Unfolding of the integer branches of `_format_number`. -/
theorem formatNumber_pint (n : Int) :
    formatNumber (.pint n) =
      if 1000000 ≤ n then formatFixed (Rat.divInt n 1000000) 1 ++ "M"
      else if 1000 ≤ n then formatFixed (Rat.divInt n 1000) 1 ++ "K"
      else toString n := rfl

/-- C1: the label formatter gives any float a fixed 3-decimal string,
an integer at least 1,000,000 the value over 1,000,000 at one decimal
place with suffix `M`, an integer at least 1,000 (below 1,000,000) the
value over 1,000 at one decimal with suffix `K`, and any other integer
its plain string; in particular 999, 1500, 2500000 and 3.14159 format
as the examples in the spec say. -/
theorem claim_C1 :
    (∀ q : Rat, formatNumber (.pfloat q) = formatFixed q 3) ∧
    (∀ n : Int, 1000000 ≤ n →
      formatNumber (.pint n) = formatFixed (Rat.divInt n 1000000) 1 ++ "M") ∧
    (∀ n : Int, 1000 ≤ n → n < 1000000 →
      formatNumber (.pint n) = formatFixed (Rat.divInt n 1000) 1 ++ "K") ∧
    (∀ n : Int, n < 1000 → formatNumber (.pint n) = toString n) ∧
    formatNumber (.pint 999) = "999" ∧
    formatNumber (.pint 1500) = "1.5K" ∧
    formatNumber (.pint 2500000) = "2.5M" ∧
    formatNumber (.pfloat (Rat.divInt 314159 100000)) = "3.142" := by
  refine ⟨fun q => rfl, fun n h => ?_, fun n h1 h2 => ?_, fun n h => ?_,
    by decide, by decide, by decide, by decide⟩
  · rw [formatNumber_pint, if_pos h]
  · rw [formatNumber_pint, if_neg (by omega), if_pos h1]
  · rw [formatNumber_pint, if_neg (by omega), if_neg (by omega)]

/-- Witness for C1 at the inputs 2500000, 1500 and 999. -/
theorem claim_C1_witness :
    formatNumber (.pint 2500000) = formatFixed (Rat.divInt 2500000 1000000) 1 ++ "M" ∧
    formatNumber (.pint 1500) = formatFixed (Rat.divInt 1500 1000) 1 ++ "K" ∧
    formatNumber (.pint 999) = toString (999 : Int) :=
  ⟨claim_C1.2.1 2500000 (by decide), claim_C1.2.2.1 1500 (by decide) (by decide),
   claim_C1.2.2.2.1 999 (by decide)⟩

/-- No sanitized character compares equal to a slash. -/
theorem slash_beq_sanitizeChar (c : Char) : ('/' == sanitizeChar c) = false := by
  unfold sanitizeChar
  split_ifs with h1 h2
  · rfl
  · rfl
  · exact beq_eq_false_iff_ne.mpr fun h => h2 h.symm

/-- A mapped character list never contains a slash. -/
theorem map_sanitize_no_slash (l : List Char) :
    (l.map sanitizeChar).contains '/' = false := by
  induction l with
  | nil => rfl
  | cons c rest ih =>
    simp only [List.map_cons, List.contains_cons, slash_beq_sanitizeChar,
      Bool.false_or, ih]

/-- C8: the badge cache key replaces every space and slash with an
underscore (hence contains no path separator), and the three listed
example names keep distinct keys. -/
theorem claim_C8 :
    (∀ language : String, (sanitizeName language).data.contains '/' = false) ∧
    (∀ language : String,
      (sanitizeName language).data =
        language.data.map (fun c => if c = ' ' ∨ c = '/' then '_' else c)) ∧
    decide (sanitizeName "C#" = sanitizeName "Objective-C") = false ∧
    decide (sanitizeName "C#" = sanitizeName "Visual Basic .NET") = false ∧
    decide (sanitizeName "Objective-C" = sanitizeName "Visual Basic .NET") = false ∧
    sanitizeName "C#" = "C#" ∧
    sanitizeName "Objective-C" = "Objective-C" ∧
    sanitizeName "Visual Basic .NET" = "Visual_Basic_.NET" := by
  refine ⟨fun language => map_sanitize_no_slash language.data, fun language => ?_,
    by decide, by decide, by decide, by decide, by decide, by decide⟩
  show language.data.map sanitizeChar = _
  have hf : sanitizeChar = fun c => if c = ' ' ∨ c = '/' then '_' else c := by
    funext c
    unfold sanitizeChar
    by_cases h1 : c = ' '
    · simp [h1]
    · by_cases h2 : c = '/'
      · simp [h1, h2]
      · simp [h1, h2]
  rw [hf]

/-- Unfolding of `_download_badge` at an in-memory cache hit. -/
theorem downloadBadge_memHit (tr : Transport) (langs : Langs) (st : CacheState)
    (language : String) (img : Img)
    (h : alookup st.badge_cache language = some img) :
    downloadBadge tr langs st language = ⟨some img, st, 0, []⟩ := by
  simp only [downloadBadge, h]

/-- Unfolding of `_download_badge` at a decodable disk hit. -/
theorem downloadBadge_diskHit (tr : Transport) (langs : Langs) (st : CacheState)
    (language : String) (bytes : Bytes) (img : Img)
    (h1 : alookup st.badge_cache language = none)
    (h2 : alookup st.disk (sanitizeName language) = some bytes)
    (h3 : tr.decode bytes = some img) :
    downloadBadge tr langs st language =
      ⟨some img, ⟨(language, img) :: st.badge_cache, st.disk⟩, 0, []⟩ := by
  simp only [downloadBadge, h1, h2, h3]

/-- With no usable cache entry, `_download_badge` falls through to the
fetch tail. -/
theorem downloadBadge_toFetch (tr : Transport) (langs : Langs) (st : CacheState)
    (language : String)
    (h1 : alookup st.badge_cache language = none)
    (h2 : alookup st.disk (sanitizeName language) = none ∨
          ∃ bytes, alookup st.disk (sanitizeName language) = some bytes ∧
            tr.decode bytes = none) :
    downloadBadge tr langs st language =
      fetchBadge tr langs st language (sanitizeName language) := by
  rcases h2 with h2 | ⟨bytes, h2, h3⟩
  · simp only [downloadBadge, h1, h2]
  · simp only [downloadBadge, h1, h2, h3]

/-- Unfolding of the fetch tail on a successful GET and decode. -/
theorem fetchBadge_ok (tr : Transport) (langs : Langs) (st : CacheState)
    (language safe_name : String) (body : Bytes) (img : Img)
    (h1 : tr.http (getBadgeUrl langs language) = some body)
    (h2 : tr.decode body = some img) :
    fetchBadge tr langs st language safe_name =
      ⟨some img,
       ⟨(language, img) :: st.badge_cache, (safe_name, tr.encode img) :: st.disk⟩,
       1, []⟩ := by
  simp only [fetchBadge, h1, h2]

/-- The fetch tail degrades to `None` with untouched caches when the
GET fails or the body does not decode. -/
theorem fetchBadge_fail (tr : Transport) (langs : Langs) (st : CacheState)
    (language safe_name : String)
    (h : tr.http (getBadgeUrl langs language) = none ∨
         ∃ body, tr.http (getBadgeUrl langs language) = some body ∧
           tr.decode body = none) :
    fetchBadge tr langs st language safe_name =
      ⟨none, st, 1, ["Warning: Could not download badge for " ++ language]⟩ := by
  rcases h with h | ⟨body, h1, h2⟩
  · simp only [fetchBadge, h]
  · simp only [fetchBadge, h1, h2]

/-- A successful fetch leaves the image at the head of the in-memory
cache. -/
theorem fetchBadge_success_mem (tr : Transport) (langs : Langs) (st : CacheState)
    (language safe_name : String) (img : Img)
    (h : (fetchBadge tr langs st language safe_name).result = some img) :
    alookup (fetchBadge tr langs st language safe_name).state.badge_cache language =
      some img := by
  cases h1 : tr.http (getBadgeUrl langs language) with
  | some body =>
    cases h2 : tr.decode body with
    | some i =>
      rw [fetchBadge_ok tr langs st language safe_name body i h1 h2] at h ⊢
      have h3 : i = img := Option.some.inj h
      show alookup ((language, i) :: st.badge_cache) language = some img
      unfold alookup
      rw [if_pos rfl, h3]
    | none =>
      rw [fetchBadge_fail tr langs st language safe_name (Or.inr ⟨body, h1, h2⟩)] at h
      exact Option.noConfusion h
  | none =>
    rw [fetchBadge_fail tr langs st language safe_name (Or.inl h1)] at h
    exact Option.noConfusion h

/-- A successful `_download_badge` call always leaves its image in the
in-memory cache for the language it resolved. -/
theorem downloadBadge_success_mem (tr : Transport) (langs : Langs) (st : CacheState)
    (language : String) (img : Img)
    (h : (downloadBadge tr langs st language).result = some img) :
    alookup (downloadBadge tr langs st language).state.badge_cache language =
      some img := by
  cases h1 : alookup st.badge_cache language with
  | some i =>
    rw [downloadBadge_memHit tr langs st language i h1] at h ⊢
    have h2 : i = img := Option.some.inj h
    show alookup st.badge_cache language = some img
    rw [← h2]
    exact h1
  | none =>
    cases h2 : alookup st.disk (sanitizeName language) with
    | some bytes =>
      cases h3 : tr.decode bytes with
      | some i =>
        rw [downloadBadge_diskHit tr langs st language bytes i h1 h2 h3] at h ⊢
        have h4 : i = img := Option.some.inj h
        show alookup ((language, i) :: st.badge_cache) language = some img
        unfold alookup
        rw [if_pos rfl, h4]
      | none =>
        rw [downloadBadge_toFetch tr langs st language h1
          (Or.inr ⟨bytes, h2, h3⟩)] at h ⊢
        exact fetchBadge_success_mem tr langs st language (sanitizeName language) img h
    | none =>
      rw [downloadBadge_toFetch tr langs st language h1 (Or.inl h2)] at h ⊢
      exact fetchBadge_success_mem tr langs st language (sanitizeName language) img h

/-- C2: once a resolution succeeded (or either cache layer already
holds a valid entry), resolving the same language again makes no
network request and returns the cached image. -/
theorem claim_C2 (tr : Transport) (langs : Langs) (st : CacheState)
    (language : String) (img : Img) :
    ((downloadBadge tr langs st language).result = some img →
      downloadBadge tr langs (downloadBadge tr langs st language).state language =
        ⟨some img, (downloadBadge tr langs st language).state, 0, []⟩) ∧
    (alookup st.badge_cache language = some img →
      downloadBadge tr langs st language = ⟨some img, st, 0, []⟩) ∧
    (∀ bytes, alookup st.badge_cache language = none →
      alookup st.disk (sanitizeName language) = some bytes →
      tr.decode bytes = some img →
      downloadBadge tr langs st language =
        ⟨some img, ⟨(language, img) :: st.badge_cache, st.disk⟩, 0, []⟩) := by
  refine ⟨fun h => ?_, fun h => downloadBadge_memHit tr langs st language img h,
    fun bytes h1 h2 h3 => downloadBadge_diskHit tr langs st language bytes img h1 h2 h3⟩
  exact downloadBadge_memHit tr langs _ language img
    (downloadBadge_success_mem tr langs st language img h)

/-- Witness for C2: a fresh fetch of `Go` succeeds, and the second
resolution returns the same image with zero network calls. -/
theorem claim_C2_witness :
    downloadBadge trOk langsEmpty (downloadBadge trOk langsEmpty st0 "Go").state "Go" =
      ⟨some 5, (downloadBadge trOk langsEmpty st0 "Go").state, 0, []⟩ :=
  (claim_C2 trOk langsEmpty st0 "Go" 5).1 (by decide)

/-- When `_download_badge` returns `None`, it returns exactly the
failure result: caches untouched, one GET attempted, one warning. -/
theorem downloadBadge_none_eq (tr : Transport) (langs : Langs) (st : CacheState)
    (language : String)
    (h : (downloadBadge tr langs st language).result = none) :
    downloadBadge tr langs st language =
      ⟨none, st, 1, ["Warning: Could not download badge for " ++ language]⟩ := by
  cases h1 : alookup st.badge_cache language with
  | some i =>
    rw [downloadBadge_memHit tr langs st language i h1] at h
    exact Option.noConfusion h
  | none =>
    have hfetch : downloadBadge tr langs st language =
        fetchBadge tr langs st language (sanitizeName language) := by
      cases h2 : alookup st.disk (sanitizeName language) with
      | some bytes =>
        cases h3 : tr.decode bytes with
        | some i =>
          rw [downloadBadge_diskHit tr langs st language bytes i h1 h2 h3] at h
          exact Option.noConfusion h
        | none => exact downloadBadge_toFetch tr langs st language h1 (Or.inr ⟨bytes, h2, h3⟩)
      | none => exact downloadBadge_toFetch tr langs st language h1 (Or.inl h2)
    rw [hfetch] at h ⊢
    cases h4 : tr.http (getBadgeUrl langs language) with
    | some body =>
      cases h5 : tr.decode body with
      | some i =>
        rw [fetchBadge_ok tr langs st language (sanitizeName language) body i h4 h5] at h
        exact Option.noConfusion h
      | none =>
        exact fetchBadge_fail tr langs st language (sanitizeName language)
          (Or.inr ⟨body, h4, h5⟩)
    | none => exact fetchBadge_fail tr langs st language (sanitizeName language) (Or.inl h4)

/-- C10: a failed resolution is never memoized: the cache state is
unchanged, the failing call attempted exactly one GET, and a repeat
call attempts the network again instead of returning a cached
absence. -/
theorem claim_C10 (tr : Transport) (langs : Langs) (st : CacheState)
    (language : String)
    (h : (downloadBadge tr langs st language).result = none) :
    (downloadBadge tr langs st language).state = st ∧
    (downloadBadge tr langs st language).netCalls = 1 ∧
    (downloadBadge tr langs (downloadBadge tr langs st language).state language).netCalls
      = 1 := by
  have e := downloadBadge_none_eq tr langs st language h
  refine ⟨by rw [e], by rw [e], ?_⟩
  rw [e]
  show (downloadBadge tr langs st language).netCalls = 1
  rw [e]

/-- Witness for C10 at a failing transport and the language `Rust`. -/
theorem claim_C10_witness :
    (downloadBadge trFail langsEmpty st0 "Rust").state = st0 ∧
    (downloadBadge trFail langsEmpty st0 "Rust").netCalls = 1 ∧
    (downloadBadge trFail langsEmpty
      (downloadBadge trFail langsEmpty st0 "Rust").state "Rust").netCalls = 1 :=
  claim_C10 trFail langsEmpty st0 "Rust" (by decide)

/-- C7 counterexample: the source does not URL-encode
`<name>-<badgeColor>`; for `C#` the percent-encoded form `C%23-239120`
does not occur in the built URL (the raw `C#-239120` does), and for
`Visual Basic .NET` the percent-encoded default form does not occur
either (spaces become underscores instead). -/
theorem claim_C7_cex :
    strOccurs (specUrlEncode "C#-239120") (getBadgeUrl csharpLangs "C#") = false ∧
    strOccurs "C#-239120" (getBadgeUrl csharpLangs "C#") = true ∧
    strOccurs (specUrlEncode "Visual Basic .NET-888888")
      (getBadgeUrl langsEmpty "Visual Basic .NET") = false ∧
    strOccurs "Visual_Basic_.NET-888888"
      (getBadgeUrl langsEmpty "Visual Basic .NET") = true := by
  decide

/-- C7 (amended): the badge URL embeds `<name>-<badgeColor>` with
spaces replaced by underscores (no percent-encoding); a configured
badge color appears in the URL, with a logo parameter exactly when a
logo id is configured; a language with no metadata or no badge color
gets the fixed default gray `888888` and no logo parameter. -/
theorem claim_C7 (langs : Langs) (language : String) :
    (∀ cfg color logo, langs language = some cfg →
      truthy cfg.badge_color = some color → truthy cfg.logo = some logo →
      getBadgeUrl langs language =
        "https://img.shields.io/badge/" ++ underscoreSpaces language ++ "-" ++ color ++
          ".png?style=for-the-badge&logo=" ++ logo ++ "&logoColor=white") ∧
    (∀ cfg color, langs language = some cfg →
      truthy cfg.badge_color = some color → truthy cfg.logo = none →
      getBadgeUrl langs language =
        "https://img.shields.io/badge/" ++ underscoreSpaces language ++ "-" ++ color ++
          ".png?style=for-the-badge") ∧
    (∀ cfg, langs language = some cfg → truthy cfg.badge_color = none →
      getBadgeUrl langs language =
        "https://img.shields.io/badge/" ++ underscoreSpaces language ++
          "-888888.png?style=for-the-badge") ∧
    (langs language = none →
      getBadgeUrl langs language =
        "https://img.shields.io/badge/" ++ underscoreSpaces language ++
          "-888888.png?style=for-the-badge") := by
  refine ⟨fun cfg color logo h1 h2 h3 => ?_, fun cfg color h1 h2 h3 => ?_,
    fun cfg h1 h2 => ?_, fun h1 => ?_⟩
  · simp only [getBadgeUrl, h1, h2, h3]
  · simp only [getBadgeUrl, h1, h2, h3]
  · simp only [getBadgeUrl, h1, h2]
  · simp only [getBadgeUrl, h1]

/-- Witness for C7 (amended) at a configured and an unconfigured
language. -/
theorem claim_C7_witness :
    getBadgeUrl csharpLangs "C#" =
      "https://img.shields.io/badge/C#-239120.png?style=for-the-badge&logo=csharp&logoColor=white" ∧
    getBadgeUrl csharpLangs "Rust" =
      "https://img.shields.io/badge/Rust-888888.png?style=for-the-badge" := by
  constructor
  · rw [(claim_C7 csharpLangs "C#").1 ⟨some "#239120", some "239120", some "csharp"⟩
      "239120" "csharp" (by decide) (by decide) (by decide)]
    decide
  · rw [(claim_C7 csharpLangs "Rust").2.2.2 (by decide)]
    decide

/-- Taking `min n (length l)` elements is the same as taking `n`. -/
theorem take_min_length (n : Nat) (l : List α) : l.take (min n l.length) = l.take n := by
  rw [List.take_eq_take]
  omega

/-- With a transport whose GET always fails and empty caches, every
badge resolution in the label loop degrades to the text fallback, the
caches stay empty, and one warning is printed per language. -/
theorem resolveLabels_allFail (tr : Transport) (langs : Langs)
    (hfail : ∀ u, tr.http u = none) (ls : List String) :
    resolveLabels tr langs st0 ls =
      (ls.map CatLabel.textLabel, st0,
       ls.map (fun l => "Warning: Could not download badge for " ++ l)) := by
  induction ls with
  | nil => rfl
  | cons l rest ih =>
    have hd : downloadBadge tr langs st0 l =
        ⟨none, st0, 1, ["Warning: Could not download badge for " ++ l]⟩ := by
      rw [downloadBadge_toFetch tr langs st0 l rfl (Or.inl rfl)]
      exact fetchBadge_fail tr langs st0 l (sanitizeName l) (Or.inl (hfail _))
    simp only [resolveLabels, hd, ih, List.map_cons, List.singleton_append]

/-- C3: a failed badge GET logs a warning and returns absent with the
caches untouched (no exception in the model: the function is total),
and each chart renderer still produces its output, with the text-label
fallback standing in for every unresolved badge. -/
theorem claim_C3 (tr : Transport) (langs : Langs) :
    (∀ (st : CacheState) (language : String),
      alookup st.badge_cache language = none →
      alookup st.disk (sanitizeName language) = none →
      tr.http (getBadgeUrl langs language) = none →
      downloadBadge tr langs st language =
        ⟨none, st, 1, ["Warning: Could not download badge for " ++ language]⟩) ∧
    (∀ (output_dir : String) (data : List (String × PyNum))
        (title filename value_label : String),
      (∀ u, tr.http u = none) → data.isEmpty = false →
      (create_leaderboard tr langs st0 output_dir data title filename value_label).output =
        some ⟨data.map (fun p => ⟨p.1, p.2, getColor langs p.1⟩),
              (data.map Prod.snd).map formatNumber,
              (data.map Prod.fst).map CatLabel.textLabel,
              value_label, output_dir ++ "/" ++ filename⟩) ∧
    (∀ (output_dir : String) (data : List (String × PyNum))
        (title filename value_label : String),
      (∀ u, tr.http u = none) → data.isEmpty = false →
      (create_simple_horizontal_bar tr langs st0 output_dir data title filename
          value_label).output =
        some ⟨(data.take 15).map (fun p => ⟨p.1, p.2, getColor langs p.1⟩),
              ((data.take 15).map Prod.snd).map formatNumber,
              ((data.take 15).map Prod.fst).map CatLabel.textLabel,
              value_label, output_dir ++ "/" ++ filename⟩) ∧
    (∀ (output_dir : String) (data : List (String × PyNum))
        (title filename value_label : String)
        (get_breakdown : String → Nat → List (String × Int)) (cnt : Nat),
      (∀ u, tr.http u = none) → data.isEmpty = false →
      (create_leaderboard_with_breakdown tr langs st0 output_dir data title filename
          value_label get_breakdown cnt).output =
        some ⟨data.map (fun p =>
                (p.1, langBars (getColor langs p.1) p.2 (get_breakdown p.1 cnt))),
              (data.map Prod.snd).map formatNumber,
              (data.map Prod.fst).map CatLabel.textLabel,
              value_label, output_dir ++ "/" ++ filename⟩) ∧
    (∀ (output_dir : String) (data : List (String × PyNum))
        (title filename value_label : String), data.isEmpty = false →
      (create_vertical_bar langs output_dir data title filename value_label).1.isSome
        = true) ∧
    (∀ (dark_mode donut : Bool) (output_dir : String)
        (data : List (String × PyNum)) (title filename : String),
      data.isEmpty = false →
      (create_pie_chart langs dark_mode output_dir data title filename donut).1.isSome
        = true) := by
  refine ⟨fun st language h1 h2 h3 => ?_, fun output_dir data title filename value_label
      hfail hne => ?_, fun output_dir data title filename value_label hfail hne => ?_,
    fun output_dir data title filename value_label get_breakdown cnt hfail hne => ?_,
    fun output_dir data title filename value_label hne => ?_,
    fun dark_mode donut output_dir data title filename hne => ?_⟩
  · rw [downloadBadge_toFetch tr langs st language h1 (Or.inl h2)]
    exact fetchBadge_fail tr langs st language (sanitizeName language) (Or.inl h3)
  · simp only [create_leaderboard, hne, Bool.false_eq_true, if_false,
      resolveLabels_allFail tr langs hfail]
  · simp only [create_simple_horizontal_bar, hne, Bool.false_eq_true, if_false,
      take_min_length, resolveLabels_allFail tr langs hfail]
  · simp only [create_leaderboard_with_breakdown, hne, Bool.false_eq_true, if_false,
      resolveLabels_allFail tr langs hfail]
  · simp only [create_vertical_bar, hne, Bool.false_eq_true, if_false, Option.isSome_some]
  · simp only [create_pie_chart, hne, Bool.false_eq_true, if_false, Option.isSome_some]

/-- Witness for C3 at a failing transport, empty caches and the input
`Rust`. -/
theorem claim_C3_witness :
    downloadBadge trFail langsEmpty st0 "Rust" =
      ⟨none, st0, 1, ["Warning: Could not download badge for Rust"]⟩ ∧
    (create_leaderboard trFail langsEmpty st0 "output" [("Rust", .pint 30)] "T"
        "lb.png" "Lines").output =
      some ⟨[⟨"Rust", .pint 30, "#888888"⟩], ["30"], [CatLabel.textLabel "Rust"],
            "Lines", "output/lb.png"⟩ ∧
    (create_simple_horizontal_bar trFail langsEmpty st0 "output" [("Rust", .pint 30)]
        "T" "hb.png" "Lines").output =
      some ⟨[⟨"Rust", .pint 30, "#888888"⟩], ["30"], [CatLabel.textLabel "Rust"],
            "Lines", "output/hb.png"⟩ ∧
    (create_leaderboard_with_breakdown trFail langsEmpty st0 "output"
        [("Rust", .pint 30)] "T" "bd.png" "Lines" (fun _ _ => []) 5).output =
      some ⟨[("Rust", [⟨.pint 30, 0, "#888888", Rat.divInt 9 10⟩])], ["30"],
            [CatLabel.textLabel "Rust"], "Lines", "output/bd.png"⟩ ∧
    (create_vertical_bar langsEmpty "output" [("Rust", .pint 30)] "T" "vb.png"
        "Lines").1.isSome = true ∧
    (create_pie_chart langsEmpty false "output" [("Rust", .pint 30)] "T"
        "pie.png" false).1.isSome = true := by
  refine ⟨?_, ?_, ?_, ?_, ?_, ?_⟩
  · exact (claim_C3 trFail langsEmpty).1 st0 "Rust" rfl rfl rfl
  · rw [(claim_C3 trFail langsEmpty).2.1 "output" [("Rust", .pint 30)] "T" "lb.png"
      "Lines" (fun u => rfl) rfl]
    decide
  · rw [(claim_C3 trFail langsEmpty).2.2.1 "output" [("Rust", .pint 30)] "T" "hb.png"
      "Lines" (fun u => rfl) rfl]
    decide
  · rw [(claim_C3 trFail langsEmpty).2.2.2.1 "output" [("Rust", .pint 30)] "T" "bd.png"
      "Lines" (fun _ _ => []) 5 (fun u => rfl) rfl]
    decide
  · exact (claim_C3 trFail langsEmpty).2.2.2.2.1 "output" [("Rust", .pint 30)] "T"
      "vb.png" "Lines" rfl
  · exact (claim_C3 trFail langsEmpty).2.2.2.2.2 false false "output"
      [("Rust", .pint 30)] "T" "pie.png" rfl

/-- C4: every chart function is a no-op on an empty input sequence: no
output, the cache untouched, one diagnostic line, and a normal return
(the model is a total function, so nothing is raised). -/
theorem claim_C4 (tr : Transport) (langs : Langs) (st : CacheState)
    (output_dir title filename value_label : String)
    (get_breakdown : String → Nat → List (String × Int)) (cnt : Nat)
    (dark_mode donut : Bool) :
    create_leaderboard tr langs st output_dir [] title filename value_label =
      ⟨none, st, ["No data to visualize for " ++ title]⟩ ∧
    create_leaderboard_with_breakdown tr langs st output_dir [] title filename
        value_label get_breakdown cnt =
      ⟨none, st, ["No data to visualize for " ++ title]⟩ ∧
    create_vertical_bar langs output_dir [] title filename value_label =
      (none, ["No data to visualize for " ++ title]) ∧
    create_simple_horizontal_bar tr langs st output_dir [] title filename value_label =
      ⟨none, st, ["No data to visualize for " ++ title]⟩ ∧
    create_pie_chart langs dark_mode output_dir [] title filename donut =
      (none, ["No data to visualize for " ++ title]) :=
  ⟨rfl, rfl, rfl, rfl, rfl⟩

/-- C9 counterexample: the donut center circle has radius 0.60 (the
code passes `0.60` to `plt.Circle`), which is not the 62% the claim
states. -/
theorem claim_C9_cex :
    (create_pie_chart langsEmpty false "output" [("Go", .pint 1)] "T" "d.png" true).1 =
      some ⟨[⟨"Go", .pint 1, "#888888"⟩],
            some ⟨Rat.divInt 60 100, "#fafafa", "#e0e0e0"⟩, "output/d.png"⟩ ∧
    decide (Rat.divInt 60 100 = Rat.divInt 62 100) = false := by
  decide

/-- C9 (amended): in donut mode the pie chart punches a center hole of
60% radius-equivalent (radius 0.60), filled and edged with the active
donut center and edge colors of the active theme; in plain pie mode
there is no hole. -/
theorem claim_C9 (langs : Langs) (dark_mode : Bool) (output_dir : String)
    (data : List (String × PyNum)) (title filename : String)
    (hne : data.isEmpty = false) :
    (∃ c : PieChart,
      (create_pie_chart langs dark_mode output_dir data title filename true).1 = some c ∧
      c.hole = some ⟨Rat.divInt 60 100, donut_center_color dark_mode,
        donut_edge_color dark_mode⟩) ∧
    (∃ c : PieChart,
      (create_pie_chart langs dark_mode output_dir data title filename false).1 = some c ∧
      c.hole = none) ∧
    donut_center_color true = "#161b22" ∧ donut_center_color false = "#fafafa" ∧
    donut_edge_color true = "#30363d" ∧ donut_edge_color false = "#e0e0e0" := by
  refine ⟨?_, ?_, rfl, rfl, rfl, rfl⟩
  · simp only [create_pie_chart, hne, Bool.false_eq_true, if_false]
    exact ⟨_, rfl, rfl⟩
  · simp only [create_pie_chart, hne, Bool.false_eq_true, if_false]
    exact ⟨_, rfl, rfl⟩

/-- Witness for C9 (amended) in dark mode at a one-entry dataset. -/
theorem claim_C9_witness :
    ∃ c : PieChart,
      (create_pie_chart langsEmpty true "output" [("Go", .pint 1)] "T" "d.png" true).1 =
        some c ∧
      c.hole = some ⟨Rat.divInt 60 100, "#161b22", "#30363d"⟩ := by
  obtain ⟨c, hc, hh⟩ :=
    (claim_C9 langsEmpty true "output" [("Go", .pint 1)] "T" "d.png" rfl).1
  exact ⟨c, hc, hh⟩

/-- C5: the vertical bar variant displays at most the first 12
categories, the simple horizontal bar at most the first 15, the
pie/donut the first 5 plus one synthesized `Other` wedge summing the
remaining values whenever more than 5 are supplied (so 7 inputs give 6
wedges); the leaderboard and breakdown leaderboard display the full
input with no cap. -/
theorem claim_C5 (tr : Transport) (langs : Langs) (st : CacheState)
    (output_dir : String) (data : List (String × PyNum))
    (title filename value_label : String)
    (get_breakdown : String → Nat → List (String × Int)) (cnt : Nat)
    (dark_mode donut : Bool)
    (hne : data.isEmpty = false) :
    (∃ c : VBarChart,
      (create_vertical_bar langs output_dir data title filename value_label).1 = some c ∧
      c.bars = (data.take 12).map (fun p => ⟨p.1, p.2, getColor langs p.1⟩) ∧
      c.bars.length = min 12 data.length) ∧
    (∃ c : HBarChart,
      (create_simple_horizontal_bar tr langs st output_dir data title filename
          value_label).output = some c ∧
      c.bars = (data.take 15).map (fun p => ⟨p.1, p.2, getColor langs p.1⟩) ∧
      c.bars.length = min 15 data.length) ∧
    (∃ c : PieChart,
      (create_pie_chart langs dark_mode output_dir data title filename donut).1 = some c ∧
      (data.length ≤ 5 →
        c.wedges = data.map (fun p =>
          ⟨p.1, p.2, if p.1 = "Other" then "#d0d0d0" else getColor langs p.1⟩)) ∧
      (5 < data.length →
        c.wedges = (data.take 5).map (fun p =>
            ⟨p.1, p.2, if p.1 = "Other" then "#d0d0d0" else getColor langs p.1⟩) ++
          [⟨"Other", pySumValues (data.drop 5), "#d0d0d0"⟩] ∧
        c.wedges.length = 6) ∧
      (data.length = 7 → c.wedges.length = 6)) ∧
    (∃ c : HBarChart,
      (create_leaderboard tr langs st output_dir data title filename value_label).output
        = some c ∧
      c.bars = data.map (fun p => ⟨p.1, p.2, getColor langs p.1⟩) ∧
      c.bars.length = data.length) ∧
    (∃ c : BreakdownChart,
      (create_leaderboard_with_breakdown tr langs st output_dir data title filename
          value_label get_breakdown cnt).output = some c ∧
      c.rows = data.map (fun p =>
        (p.1, langBars (getColor langs p.1) p.2 (get_breakdown p.1 cnt))) ∧
      c.rows.length = data.length) := by
  refine ⟨?_, ?_, ?_, ?_, ?_⟩
  · simp only [create_vertical_bar, hne, Bool.false_eq_true, if_false, take_min_length]
    refine ⟨_, rfl, rfl, ?_⟩
    simp [List.length_take]
  · simp only [create_simple_horizontal_bar, hne, Bool.false_eq_true, if_false,
      take_min_length]
    refine ⟨_, rfl, rfl, ?_⟩
    simp [List.length_take]
  · simp only [create_pie_chart, hne, Bool.false_eq_true, if_false]
    refine ⟨_, rfl, ?_, ?_, ?_⟩
    · intro hle
      rw [if_neg (by omega), List.take_of_length_le hle]
    · intro hlt
      rw [if_pos hlt]
      refine ⟨by simp, ?_⟩
      simp [List.length_take]
      omega
    · intro h7
      rw [if_pos (by omega)]
      simp [List.length_take]
      omega
  · simp only [create_leaderboard, hne, Bool.false_eq_true, if_false]
    refine ⟨_, rfl, rfl, ?_⟩
    simp
  · simp only [create_leaderboard_with_breakdown, hne, Bool.false_eq_true, if_false]
    refine ⟨_, rfl, rfl, ?_⟩
    simp

/-- Witness for C5 at a 7-entry dataset: the pie keeps 5 wedges plus
`Other` (6 in all), the vertical and horizontal bars keep all 7, the
leaderboard keeps all 7. -/
theorem claim_C5_witness :
    ∃ c : PieChart,
      (create_pie_chart langsEmpty false "output"
        [("A", .pint 1), ("B", .pint 2), ("C", .pint 3), ("D", .pint 4),
         ("E", .pint 5), ("F", .pint 6), ("G", .pint 7)] "T" "p.png" false).1 = some c ∧
      c.wedges.length = 6 := by
  obtain ⟨c, hc, -, -, h7⟩ :=
    (claim_C5 trOk langsEmpty st0 "output"
      [("A", .pint 1), ("B", .pint 2), ("C", .pint 3), ("D", .pint 4),
       ("E", .pint 5), ("F", .pint 6), ("G", .pint 7)] "T" "p.png" "V"
      (fun _ _ => []) 5 false false rfl).2.2.1
  exact ⟨c, hc, h7 rfl⟩

/-- Folding the segment lengths from any start value adds their sum. -/
theorem sumLines_eq (s : Int) (l : List (String × Int)) :
    l.foldl (fun a p => a + p.2) s = s + sumLines l := by
  induction l generalizing s with
  | nil => simp [sumLines]
  | cons p rest ih =>
    rw [List.foldl_cons, ih]
    have h2 : sumLines (p :: rest) = p.2 + sumLines rest := by
      show List.foldl _ 0 (p :: rest) = _
      rw [List.foldl_cons, ih]
      omega
    rw [h2]
    omega

/-- Unfolding of `sumLines` at a cons cell. -/
theorem sumLines_cons (p : String × Int) (l : List (String × Int)) :
    sumLines (p :: l) = p.2 + sumLines l := by
  show List.foldl _ 0 (p :: l) = _
  rw [List.foldl_cons, sumLines_eq]
  omega

/-- The segment loop draws one bar per breakdown entry. -/
theorem buildSegs_length (c : String) (j0 : Nat) (left : Int)
    (repos : List (String × Int)) :
    (buildSegs c j0 left repos).length = repos.length := by
  induction repos generalizing j0 left with
  | nil => rfl
  | cons r rest ih => simp [buildSegs, ih]

/-- The `j`-th segment of the loop holds the `j`-th breakdown value,
starts where the previous segments end, and has opacity
`max (1 - 0.15 * (j0 + j)) 0.4`. -/
theorem buildSegs_get (c : String) (repos : List (String × Int)) :
    ∀ (j0 : Nat) (left : Int) (j : Nat) (pr : String × Int),
      repos[j]? = some pr →
      (buildSegs c j0 left repos)[j]? =
        some ⟨.pint pr.2, left + sumLines (repos.take j), c, segAlpha (j0 + j)⟩ := by
  induction repos with
  | nil =>
    intro j0 left j pr h
    simp at h
  | cons r rest ih =>
    intro j0 left j pr h
    cases j with
    | zero =>
      rw [List.getElem?_cons_zero] at h
      obtain rfl : r = pr := Option.some.inj h
      simp only [buildSegs, List.getElem?_cons_zero, List.take_zero]
      have e1 : sumLines ([] : List (String × Int)) = 0 := rfl
      rw [e1, Int.add_zero, Nat.add_zero]
    | succ j =>
      rw [List.getElem?_cons_succ] at h
      simp only [buildSegs, List.getElem?_cons_succ]
      rw [ih (j0 + 1) (left + r.2) j pr h, List.take_succ_cons, sumLines_cons]
      have e1 : left + r.2 + sumLines (rest.take j) =
          left + (r.2 + sumLines (rest.take j)) := by
        omega
      have e2 : j0 + 1 + j = j0 + (j + 1) := by
        omega
      rw [e1, e2]

/-- C6: in the breakdown leaderboard, a category with a non-empty
callback result gets adjacent segments in callback order, the `j`-th
with opacity `max (1 - 0.15 * j) 0.4`; when the segment sum falls short
of the category total, one extra 0.25-opacity segment covers the
remainder; an empty callback result gives one plain full-width bar; and
the renderer draws exactly these bars for every row. -/
theorem claim_C6 (c : String) (v : PyNum) (repos : List (String × Int)) :
    (repos.isEmpty = true →
      langBars c v repos = [⟨v, 0, c, Rat.divInt 9 10⟩]) ∧
    (repos.isEmpty = false →
      (∀ (j : Nat) (pr : String × Int), repos[j]? = some pr →
        (langBars c v repos)[j]? =
          some ⟨.pint pr.2, sumLines (repos.take j), c,
            Rat.divInt (max (100 - 15 * (j : Int)) 40) 100⟩) ∧
      (intLtPy (sumLines repos) v = true →
        langBars c v repos =
          buildSegs c 0 0 repos ++
            [⟨pySubInt v (sumLines repos), sumLines repos, c, Rat.divInt 25 100⟩] ∧
        (langBars c v repos).length = repos.length + 1) ∧
      (intLtPy (sumLines repos) v = false →
        langBars c v repos = buildSegs c 0 0 repos ∧
        (langBars c v repos).length = repos.length)) ∧
    (∀ (tr : Transport) (langs : Langs) (st : CacheState) (output_dir : String)
        (data : List (String × PyNum)) (title filename value_label : String)
        (get_breakdown : String → Nat → List (String × Int)) (cnt : Nat),
      data.isEmpty = false →
      ∃ ch : BreakdownChart,
        (create_leaderboard_with_breakdown tr langs st output_dir data title filename
            value_label get_breakdown cnt).output = some ch ∧
        ch.rows = data.map (fun p =>
          (p.1, langBars (getColor langs p.1) p.2 (get_breakdown p.1 cnt)))) := by
  refine ⟨fun he => ?_, fun hne => ⟨fun j pr hj => ?_, fun hlt => ?_, fun hge => ?_⟩,
    fun tr langs st output_dir data title filename value_label get_breakdown cnt hd => ?_⟩
  · simp only [langBars, he, if_true]
  · have hjlen : j < repos.length := by
      by_contra hc
      rw [List.getElem?_eq_none (by omega)] at hj
      exact Option.noConfusion hj
    have hseg := buildSegs_get c repos 0 0 j pr hj
    have hslen : j < (buildSegs c 0 0 repos).length := by
      rw [buildSegs_length]
      exact hjlen
    have e0 : (0 : Int) + sumLines (repos.take j) = sumLines (repos.take j) := by omega
    rw [e0] at hseg
    have e1 : (0 : Nat) + j = j := by omega
    rw [e1] at hseg
    simp only [langBars, hne, Bool.false_eq_true, if_false]
    by_cases hc : intLtPy (sumLines repos) v = true
    · rw [if_pos hc, List.getElem?_append_left hslen]
      exact hseg
    · rw [if_neg hc]
      exact hseg
  · constructor
    · simp only [langBars, hne, Bool.false_eq_true, if_false, hlt, if_true]
    · simp [langBars, hne, hlt, buildSegs_length]
  · constructor
    · simp only [langBars, hne, Bool.false_eq_true, if_false, hge, if_false]
    · simp [langBars, hne, hge, buildSegs_length]
  · simp only [create_leaderboard_with_breakdown, hd, Bool.false_eq_true, if_false]
    exact ⟨_, rfl, rfl⟩

/-- Witness for C6 at the example given in the spec: total 100, callback result
`[(A, 40), (B, 30)]`; the second segment starts at 40, and a remainder
segment follows the two segments. -/
theorem claim_C6_witness :
    (langBars "#3572A5" (.pint 100) [("A", 40), ("B", 30)])[1]? =
      some ⟨.pint 30, sumLines ([("A", 40), ("B", 30)].take 1), "#3572A5",
        Rat.divInt (max (100 - 15 * (1 : Int)) 40) 100⟩ ∧
    langBars "#3572A5" (.pint 100) [("A", 40), ("B", 30)] =
      buildSegs "#3572A5" 0 0 [("A", 40), ("B", 30)] ++
        [⟨pySubInt (.pint 100) (sumLines [("A", 40), ("B", 30)]),
          sumLines [("A", 40), ("B", 30)], "#3572A5", Rat.divInt 25 100⟩] ∧
    langBars "#3572A5" (.pint 0) [] = [⟨.pint 0, 0, "#3572A5", Rat.divInt 9 10⟩] := by
  refine ⟨?_, ?_, ?_⟩
  · exact ((claim_C6 "#3572A5" (.pint 100) [("A", 40), ("B", 30)]).2.1 rfl).1 1
      ("B", 30) rfl
  · exact (((claim_C6 "#3572A5" (.pint 100) [("A", 40), ("B", 30)]).2.1 rfl).2.1
      (by decide)).1
  · exact (claim_C6 "#3572A5" (.pint 0) []).1 rfl
